import Mathlib

/-!
Verification development for a Backstage repository fragment consisting of
two pieces: a catalog identity client (findUser) and the cost-insights
dashboard page loader (getInsights).  The TypeScript sources are embedded
shallowly below; theorems about the embedded definitions settle the
spec claims.
-/

namespace Backstage

namespace CatalogIdentity

/-- A catalog entity.  The claims only cardinality-inspect entities, so the
payload is an opaque name. -/
structure Entity where
  name : String
  deriving DecidableEq, Repr, Inhabited

/-- Mirrors the TypeScript type UserQuery with its record of annotation
key/value pairs.  A JavaScript record is embedded as an association list in
insertion order; map-key uniqueness is carried as a Nodup hypothesis where a
claim needs it. -/
structure UserQuery where
  annotations : List (String × String)
  deriving Repr

/-- The two error classes findUser can throw. -/
inductive FindUserError where
  | notFound (message : String)
  | conflict (message : String)
  deriving DecidableEq, Repr

/-- JavaScript object property assignment on a record embedded as an
association list: overwrite the value in place when the key exists, append
the pair otherwise. -/
def recordSet (f : List (String × String)) (k v : String) : List (String × String) :=
  if f.any (fun kv => kv.1 = k) then
    f.map (fun kv => if kv.1 = k then (k, v) else kv)
  else
    f ++ [(k, v)]

/-- Embeds the filter-building loop of findUser: start from the record
holding kind = user, then assign one dotted annotation path per annotation
entry, in order. -/
def buildFilter (annotations : List (String × String)) : List (String × String) :=
  annotations.foldl
    (fun f kv => recordSet f ("metadata.annotations." ++ kv.1) kv.2)
    [("kind", "user")]

/-- Embeds CatalogIdentityClient.findUser.  The catalog API getEntities is a
parameter mapping the filter record to the list of entities it returns. -/
def findUser (getEntities : List (String × String) → List Entity)
    (query : UserQuery) : Except FindUserError Entity :=
  let filter := buildFilter query.annotations
  let users := getEntities filter
  if users.length ≠ 1 then
    if users.length > 1 then
      Except.error (FindUserError.conflict "User lookup resulted in multiple matches")
    else
      Except.error (FindUserError.notFound "User not found")
  else
    Except.ok (users.getD 0 default)

/-- The dotted filter entry built from one annotation entry. -/
def toFilterEntry (kv : String × String) : String × String :=
  ("metadata.annotations." ++ kv.1, kv.2)

/-- A catalog that returns exactly one entity for every filter, for
concrete runs. -/
def singleEntityCatalog : List (String × String) → List Entity :=
  fun _ => [{ name := "alice" }]

end CatalogIdentity

namespace CostInsights

/-- Opaque domain records returned by the cost API; the claims never inspect
their contents. -/
abbrev Project := String

abbrev Alert := String

abbrev MetricData := String

abbrev Cost := String

abbrev FetchError := String

/-- The intervals value produced by intervalsOf; the claims treat it
opaquely, so it is embedded as the pair of its inputs. -/
abbrev Intervals := String × String

/-- Embeds intervalsOf(duration, lastCompleteBillingDate).  Its internals
live outside this fragment and no claim depends on them, so the embedding
keeps it as an injective pairing of its arguments. -/
def intervalsOf (duration : String) (lastCompleteBillingDate : String) : Intervals :=
  (duration, lastCompleteBillingDate)

/-- The page filter state: group, project, duration and metric, mirroring
pageFilters in CostInsightsPage. -/
structure PageFilters where
  group : Option String
  project : Option String
  duration : String
  metric : Option String
  deriving DecidableEq, Repr

/-- The five useState cells of CostInsightsPage that the loader writes:
the four fetched resources, all nullable until the first successful fetch,
plus the stored error. -/
structure PageState where
  projects : Option (List Project)
  dailyCost : Option Cost
  metricData : Option MetricData
  alerts : Option (List Alert)
  error : Option FetchError
  deriving DecidableEq, Repr

/-- Modelled from the spec: the loading flags managed by the useLoading
hook and mapLoadingToProps, whose implementation lives outside this
fragment.  One flag for the initial page load, one for the insights fetch,
and one flag standing for the remaining per-product loading actions. -/
structure LoadingState where
  initial : Bool
  insights : Bool
  actions : Bool
  deriving DecidableEq, Repr

/-- Modelled from the spec: dispatchLoadingInsights(b) sets the insights
loading flag to b. -/
def dispatchLoadingInsights (b : Bool) (ld : LoadingState) : LoadingState :=
  { ld with insights := b }

/-- Modelled from the spec: dispatchLoadingInitial(b) sets the initial
loading flag to b. -/
def dispatchLoadingInitial (b : Bool) (ld : LoadingState) : LoadingState :=
  { ld with initial := b }

/-- Modelled from the spec: dispatchLoadingNone(loadingActions) clears the
loading state, putting every flag into its not-loading position. -/
def dispatchLoadingNone (_ld : LoadingState) : LoadingState :=
  { initial := false, insights := false, actions := false }

/-- The cost API client collaborator.  Each method returns Except, with
error standing for promise rejection. -/
structure CostInsightsClient where
  getGroupProjects : String → Except FetchError (List Project)
  getAlerts : String → Except FetchError (List Alert)
  getDailyMetricData : String → Intervals → Except FetchError MetricData
  getProjectDailyCost : String → Intervals → Except FetchError Cost
  getGroupDailyCost : String → Intervals → Except FetchError Cost

/-- One request issued to the cost API client, with its arguments. -/
inductive ApiCall where
  | getGroupProjects (group : String)
  | getAlerts (group : String)
  | getDailyMetricData (metric : String) (intervals : Intervals)
  | getProjectDailyCost (project : String) (intervals : Intervals)
  | getGroupDailyCost (group : String) (intervals : Intervals)
  deriving DecidableEq, Repr

/-- The requests the Promise.all array construction in getInsights issues:
all promises in the array are created before any is awaited, so the set of
calls depends only on the filter state, never on outcomes.  With no group
selected the loader issues none. -/
def callsOf (filters : PageFilters) (intervals : Intervals) : List ApiCall :=
  match filters.group with
  | none => []
  | some group =>
      [ApiCall.getGroupProjects group, ApiCall.getAlerts group]
        ++ (match filters.metric with
            | some m => [ApiCall.getDailyMetricData m intervals]
            | none => [])
        ++ [match filters.project with
            | some p => ApiCall.getProjectDailyCost p intervals
            | none => ApiCall.getGroupDailyCost group intervals]

/-- Embeds the awaited Promise.all of getInsights: the combined outcome of
the four slots.  The third slot is null rather than a metric request when no
metric is selected, and the fourth is the project or the group daily cost
request depending on the project filter.  Rejection of any slot rejects the
whole combination. -/
def fetchAll (client : CostInsightsClient) (group : String) (filters : PageFilters)
    (intervals : Intervals) :
    Except FetchError (List Project × List Alert × Option MetricData × Cost) := do
  let fetchedProjects ← client.getGroupProjects group
  let fetchedAlerts ← client.getAlerts group
  let fetchedMetricData ←
    (match filters.metric with
     | some m => Except.map some (client.getDailyMetricData m intervals)
     | none => Except.ok none)
  let fetchedDailyCost ←
    (match filters.project with
     | some p => client.getProjectDailyCost p intervals
     | none => client.getGroupDailyCost group intervals)
  return (fetchedProjects, fetchedAlerts, fetchedMetricData, fetchedDailyCost)

/-- Everything one run of getInsights produces: the page state and loading
state after the run, and the list of requests it issued. -/
structure RunResult where
  state : PageState
  loading : LoadingState
  calls : List ApiCall
  deriving Repr

/-- Embeds the getInsights function of CostInsightsPage: clear the error,
then, when a group is selected, raise the insights loading flag and await
the Promise.all; on success replace the four resource states with the
fetched values, on rejection store the error and clear loading state; with
no group selected dispatch no loading.  The finally block lowers the
initial and insights flags on every path. -/
def getInsights (client : CostInsightsClient) (filters : PageFilters)
    (lastCompleteBillingDate : String) (st : PageState) (ld : LoadingState) : RunResult :=
  let st0 := { st with error := none }
  match filters.group with
  | some group =>
      let ld1 := dispatchLoadingInsights true ld
      let intervals := intervalsOf filters.duration lastCompleteBillingDate
      let calls := callsOf filters intervals
      match fetchAll client group filters intervals with
      | Except.ok (fetchedProjects, fetchedAlerts, fetchedMetricData, fetchedDailyCost) =>
          { state := { st0 with
              projects := some fetchedProjects
              alerts := some fetchedAlerts
              metricData := fetchedMetricData
              dailyCost := some fetchedDailyCost }
            loading := dispatchLoadingInsights false (dispatchLoadingInitial false ld1)
            calls := calls }
      | Except.error e =>
          { state := { st0 with error := some e }
            loading :=
              dispatchLoadingInsights false
                (dispatchLoadingInitial false (dispatchLoadingNone ld1))
            calls := calls }
  | none =>
      { state := st0
        loading :=
          dispatchLoadingInsights false
            (dispatchLoadingInitial false (dispatchLoadingNone ld))
        calls := [] }

/-- Embeds setProject: writing the sentinel value all stores null as the
project filter, anything else is stored as is; the rest of the filter
state is kept. -/
def setProject (pageFilters : PageFilters) (project : Option String) : PageFilters :=
  { pageFilters with project := if project = some "all" then none else project }

/-- The top-level views CostInsightsPage can render. -/
inductive RenderedView where
  | progress
  | errorBanner (message : String)
  | noGroups
  | missingData (group : String)
  | dashboard
  deriving DecidableEq, Repr

/-- Embeds the early-return cascade of CostInsightsPage: Progress while the
initial load flag is up, the error banner when an error is stored, the
no-groups onboarding view when no group is selected, the missing-data
banner when daily cost or alerts is null, and otherwise the populated
dashboard. -/
def render (loadingInitial : Bool) (st : PageState) (filters : PageFilters) : RenderedView :=
  if loadingInitial then
    RenderedView.progress
  else
    match st.error with
    | some e => RenderedView.errorBanner e
    | none =>
        match filters.group with
        | none => RenderedView.noGroups
        | some group =>
            match st.dailyCost, st.alerts with
            | some _, some _ => RenderedView.dashboard
            | _, _ => RenderedView.missingData group

/-- A cost API client whose every request succeeds, for concrete runs. -/
def mockClient : CostInsightsClient :=
  { getGroupProjects := fun _ => Except.ok ["p1"]
    getAlerts := fun _ => Except.ok []
    getDailyMetricData := fun _ _ => Except.ok "md"
    getProjectDailyCost := fun _ _ => Except.ok "pc"
    getGroupDailyCost := fun _ _ => Except.ok "gc" }

/-- A cost API client whose alerts request rejects, for concrete runs. -/
def failingClient : CostInsightsClient :=
  { getGroupProjects := fun _ => Except.ok ["p1"]
    getAlerts := fun _ => Except.error "network down"
    getDailyMetricData := fun _ _ => Except.ok "md"
    getProjectDailyCost := fun _ _ => Except.ok "pc"
    getGroupDailyCost := fun _ _ => Except.ok "gc" }

/-- The page state before any fetch: all resources and the error null. -/
def emptyState : PageState :=
  { projects := none, dailyCost := none, metricData := none, alerts := none, error := none }

/-- A page state holding a stale error from an earlier failed fetch. -/
def staleErrorState : PageState :=
  { projects := none, dailyCost := none, metricData := none, alerts := none,
    error := some "stale failure" }

/-- The loading state at mount time. -/
def initialLoading : LoadingState :=
  { initial := true, insights := false, actions := true }

/-- A concrete filter state with a group and a metric selected and no
project filter. -/
def groupFilters : PageFilters :=
  { group := some "team-a", project := none, duration := "P30D", metric := some "m1" }

/-- A concrete filter state with no group selected. -/
def noGroupFilters : PageFilters :=
  { group := none, project := none, duration := "P30D", metric := none }

/-- A concrete filter state with a group and a project selected and no
metric. -/
def projFilters : PageFilters :=
  { group := some "team-a", project := some "p1", duration := "P30D", metric := none }

end CostInsights

end Backstage

namespace Backstage

namespace CatalogIdentity

theorem findUser_characterization
    (getEntities : List (String × String) → List Entity) (query : UserQuery) :
    findUser getEntities query =
      match getEntities (buildFilter query.annotations) with
      | [] => Except.error (FindUserError.notFound "User not found")
      | [u] => Except.ok u
      | _ :: _ :: _ =>
          Except.error (FindUserError.conflict "User lookup resulted in multiple matches") := by
  unfold findUser
  rcases h : getEntities (buildFilter query.annotations) with _ | ⟨u, _ | ⟨v, us⟩⟩ <;>
    simp [h]

theorem dotted_key_ne_kind (s : String) : "metadata.annotations." ++ s ≠ "kind" := by
  intro h
  have hlen := congrArg String.length h
  rw [String.length_append] at hlen
  have h1 : ("metadata.annotations." : String).length = 21 := rfl
  have h2 : ("kind" : String).length = 4 := rfl
  rw [h1, h2] at hlen
  omega

theorem lookup_map_overwrite (f : List (String × String)) (k v t : String) (hne : t ≠ k) :
    List.lookup t (f.map (fun kv => if kv.1 = k then (k, v) else kv)) = List.lookup t f := by
  induction f with
  | nil => rfl
  | cons e es ih =>
      obtain ⟨a, b⟩ := e
      by_cases h : a = k
      · subst h
        have hbeq : (t == a) = false := beq_false_of_ne hne
        simp [List.lookup_cons, hbeq, ih]
      · cases ht : t == a <;> simp [List.lookup_cons, h, ht, ih]

theorem lookup_append_single_ne (f : List (String × String)) (k v t : String)
    (hne : t ≠ k) :
    List.lookup t (f ++ [(k, v)]) = List.lookup t f := by
  induction f with
  | nil =>
      have hbeq : (t == k) = false := beq_false_of_ne hne
      simp [List.lookup_cons, hbeq]
  | cons e es ih =>
      obtain ⟨a, b⟩ := e
      cases ht : t == a <;> simp [List.lookup_cons, ht, ih]

theorem lookup_recordSet_ne (f : List (String × String)) (k v t : String)
    (hne : t ≠ k) :
    List.lookup t (recordSet f k v) = List.lookup t f := by
  unfold recordSet
  by_cases h : f.any (fun kv => kv.1 = k) = true
  · rw [if_pos h]
    exact lookup_map_overwrite f k v t hne
  · rw [if_neg h]
    exact lookup_append_single_ne f k v t hne

theorem lookup_kind_foldl (l acc : List (String × String))
    (h : List.lookup "kind" acc = some "user") :
    List.lookup "kind"
      (l.foldl (fun f kv => recordSet f ("metadata.annotations." ++ kv.1) kv.2) acc)
      = some "user" := by
  induction l generalizing acc with
  | nil => exact h
  | cons kv rest ih =>
      simp only [List.foldl_cons]
      refine ih _ ?_
      rw [lookup_recordSet_ne acc ("metadata.annotations." ++ kv.1) kv.2 "kind"
        (Ne.symm (dotted_key_ne_kind kv.1))]
      exact h

theorem string_append_left_cancel {s a b : String} (h : s ++ a = s ++ b) : a = b := by
  have hd := congrArg String.data h
  rw [String.data_append, String.data_append] at hd
  exact String.ext (List.append_cancel_left hd)

theorem foldl_recordSet_fresh (l : List (String × String)) :
    ∀ acc : List (String × String),
    (∀ kv ∈ l, ∀ e ∈ acc, e.1 ≠ "metadata.annotations." ++ kv.1) →
    (l.map Prod.fst).Nodup →
    l.foldl (fun f kv => recordSet f ("metadata.annotations." ++ kv.1) kv.2) acc
      = acc ++ l.map toFilterEntry := by
  induction l with
  | nil => intro acc _ _; simp
  | cons kv rest ih =>
      intro acc hfresh hnodup
      simp only [List.map_cons, List.nodup_cons] at hnodup
      have hnot : acc.any (fun e => e.1 = "metadata.annotations." ++ kv.1) ≠ true := by
        intro hc
        rw [List.any_eq_true] at hc
        rcases hc with ⟨e, he, heq⟩
        exact hfresh kv (List.mem_cons_self kv rest) e he (of_decide_eq_true heq)
      have hstep : recordSet acc ("metadata.annotations." ++ kv.1) kv.2
          = acc ++ [toFilterEntry kv] := by
        unfold recordSet
        rw [if_neg hnot]
        rfl
      have hfresh2 :
          ∀ kv2 ∈ rest, ∀ e ∈ acc ++ [toFilterEntry kv],
            e.1 ≠ "metadata.annotations." ++ kv2.1 := by
        intro kv2 h2 e he
        rcases List.mem_append.mp he with hacc | hsing
        · exact hfresh kv2 (List.mem_cons_of_mem kv h2) e hacc
        · have heq : e = toFilterEntry kv := List.mem_singleton.mp hsing
          rw [heq]
          intro hcontra
          have : kv.1 = kv2.1 := string_append_left_cancel hcontra
          exact hnodup.1 (this ▸ List.mem_map_of_mem Prod.fst h2)
      simp only [List.foldl_cons]
      rw [hstep, ih (acc ++ [toFilterEntry kv]) hfresh2 hnodup.2]
      simp [List.append_assoc]

/-- Claim C1: for every annotation query map, findUser fails with the
not-found error when the catalog returns 0 entities, fails with the
conflict error when it returns 2 or more, returns the single entity
unchanged when it returns exactly 1, and not-found and conflict are the
only error kinds it ever throws. -/
theorem findUser_cardinality
    (getEntities : List (String × String) → List Entity) (query : UserQuery) :
    (getEntities (buildFilter query.annotations) = [] →
      findUser getEntities query =
        Except.error (FindUserError.notFound "User not found")) ∧
    (∀ u : Entity, getEntities (buildFilter query.annotations) = [u] →
      findUser getEntities query = Except.ok u) ∧
    (2 ≤ (getEntities (buildFilter query.annotations)).length →
      findUser getEntities query =
        Except.error (FindUserError.conflict "User lookup resulted in multiple matches")) ∧
    (∀ err : FindUserError, findUser getEntities query = Except.error err →
      err = FindUserError.notFound "User not found" ∨
      err = FindUserError.conflict "User lookup resulted in multiple matches") := by
  have hc := findUser_characterization getEntities query
  refine ⟨?_, ?_, ?_, ?_⟩
  · intro h
    rw [hc, h]
  · intro u h
    rw [hc, h]
  · intro h
    rcases hl : getEntities (buildFilter query.annotations) with _ | ⟨u, _ | ⟨v, us⟩⟩
    · rw [hl] at h
      simp at h
    · rw [hl] at h
      simp at h
    · rw [hc, hl]
  · intro err herr
    rw [hc] at herr
    rcases hl : getEntities (buildFilter query.annotations) with _ | ⟨u, _ | ⟨v, us⟩⟩ <;>
      rw [hl] at herr <;> simp at herr
    · exact Or.inl herr.symm
    · exact Or.inr herr.symm

/-- Witness for C1 at a concrete catalog returning exactly one entity. -/
theorem findUser_cardinality_witness :
    findUser singleEntityCatalog { annotations := [("hello", "world")] } =
      Except.ok { name := "alice" } :=
  (findUser_cardinality singleEntityCatalog
    { annotations := [("hello", "world")] }).2.1 { name := "alice" } rfl

/-- Claim C7: for every annotation query map (with the key uniqueness a
map gives), the filter findUser sends to getEntities is exactly the entry
kind = user followed by one entry per annotation key, each key mapped to
its dotted metadata-annotations path paired with the query value for that
key. -/
theorem findUser_filter_entries (query : UserQuery)
    (hnodup : (query.annotations.map Prod.fst).Nodup) :
    buildFilter query.annotations =
      ("kind", "user") :: query.annotations.map toFilterEntry := by
  unfold buildFilter
  rw [foldl_recordSet_fresh query.annotations [("kind", "user")] ?fresh hnodup]
  · rfl
  case fresh =>
    intro kv _ e he
    rw [List.mem_singleton.mp he]
    exact fun h => dotted_key_ne_kind kv.1 h.symm

/-- Witness for C7 at a concrete two-entry annotation query. -/
theorem findUser_filter_entries_witness :
    buildFilter [("a", "1"), ("b", "2")] =
      ("kind", "user") :: [("a", "1"), ("b", "2")].map toFilterEntry :=
  findUser_filter_entries { annotations := [("a", "1"), ("b", "2")] } (by decide)

/-- Claim C9: the filter findUser sends always retains the kind = user
constraint: every annotation key is prefixed into the metadata-annotations
namespace, so no annotation key, including one literally named kind, can
overwrite or remove the kind entry. -/
theorem buildFilter_keeps_kind (query : UserQuery) :
    List.lookup "kind" (buildFilter query.annotations) = some "user" := by
  unfold buildFilter
  exact lookup_kind_foldl query.annotations [("kind", "user")] rfl

end CatalogIdentity

namespace CostInsights

theorem getInsights_calls_eq (client : CostInsightsClient) (filters : PageFilters)
    (billingDate : String) (st : PageState) (ld : LoadingState) :
    (getInsights client filters billingDate st ld).calls =
      callsOf filters (intervalsOf filters.duration billingDate) := by
  unfold getInsights
  cases hg : filters.group with
  | none => simp [callsOf, hg]
  | some g =>
      simp only [hg]
      cases fetchAll client g filters (intervalsOf filters.duration billingDate) <;> rfl

theorem calls_dailyCost_selection (client : CostInsightsClient)
    (filters : PageFilters) (billingDate : String) (st : PageState) (ld : LoadingState)
    (g : String) (hg : filters.group = some g) :
    (filters.project = none →
      ApiCall.getGroupDailyCost g (intervalsOf filters.duration billingDate)
          ∈ (getInsights client filters billingDate st ld).calls ∧
      ∀ (p : String) (iv : Intervals),
        ApiCall.getProjectDailyCost p iv
          ∉ (getInsights client filters billingDate st ld).calls) ∧
    (∀ proj : String, filters.project = some proj →
      ApiCall.getProjectDailyCost proj (intervalsOf filters.duration billingDate)
          ∈ (getInsights client filters billingDate st ld).calls ∧
      ∀ (g2 : String) (iv : Intervals),
        ApiCall.getGroupDailyCost g2 iv
          ∉ (getInsights client filters billingDate st ld).calls) := by
  simp only [getInsights_calls_eq]
  constructor
  · intro hp
    cases hm : filters.metric <;> simp [callsOf, hg, hp, hm]
  · intro proj hp
    cases hm : filters.metric <;> simp [callsOf, hg, hp, hm]

/-- Claim C2: for every filter state with no group selected, the loader
issues no cost API request at all, and after the run the page renders the
no-groups onboarding view. -/
theorem getInsights_noGroup (client : CostInsightsClient) (filters : PageFilters)
    (billingDate : String) (st : PageState) (ld : LoadingState)
    (hg : filters.group = none) :
    (getInsights client filters billingDate st ld).calls = [] ∧
    render (getInsights client filters billingDate st ld).loading.initial
        (getInsights client filters billingDate st ld).state filters =
      RenderedView.noGroups := by
  simp [getInsights, hg, render, dispatchLoadingInsights, dispatchLoadingInitial,
    dispatchLoadingNone]

/-- Witness for C2 at a concrete no-group filter state. -/
theorem getInsights_noGroup_witness :
    (getInsights mockClient noGroupFilters "2020-01-01" emptyState initialLoading).calls
        = [] ∧
    render
        (getInsights mockClient noGroupFilters "2020-01-01" emptyState
          initialLoading).loading.initial
        (getInsights mockClient noGroupFilters "2020-01-01" emptyState
          initialLoading).state noGroupFilters =
      RenderedView.noGroups :=
  getInsights_noGroup mockClient noGroupFilters "2020-01-01" emptyState initialLoading rfl

/-- Claim C3: for every filter state with a group selected, the loader
requests the group daily cost and not any project daily cost when the
project filter is null, and requests the daily cost of the selected
project and not any group daily cost when a project is selected. -/
theorem getInsights_dailyCost_selection (client : CostInsightsClient)
    (filters : PageFilters) (billingDate : String) (st : PageState) (ld : LoadingState)
    (g : String) (hg : filters.group = some g) :
    (filters.project = none →
      ApiCall.getGroupDailyCost g (intervalsOf filters.duration billingDate)
          ∈ (getInsights client filters billingDate st ld).calls ∧
      ∀ (p : String) (iv : Intervals),
        ApiCall.getProjectDailyCost p iv
          ∉ (getInsights client filters billingDate st ld).calls) ∧
    (∀ proj : String, filters.project = some proj →
      ApiCall.getProjectDailyCost proj (intervalsOf filters.duration billingDate)
          ∈ (getInsights client filters billingDate st ld).calls ∧
      ∀ (g2 : String) (iv : Intervals),
        ApiCall.getGroupDailyCost g2 iv
          ∉ (getInsights client filters billingDate st ld).calls) :=
  calls_dailyCost_selection client filters billingDate st ld g hg

/-- Witness for C3 at concrete filter states, one with the project filter
null and one with project p1 selected. -/
theorem getInsights_dailyCost_selection_witness :
    (ApiCall.getGroupDailyCost "team-a" (intervalsOf "P30D" "2020-01-01")
        ∈ (getInsights mockClient groupFilters "2020-01-01" emptyState
            initialLoading).calls ∧
      ApiCall.getProjectDailyCost "p1" ("P30D", "2020-01-01")
        ∉ (getInsights mockClient groupFilters "2020-01-01" emptyState
            initialLoading).calls) ∧
    (ApiCall.getProjectDailyCost "p1" (intervalsOf "P30D" "2020-01-01")
        ∈ (getInsights mockClient projFilters "2020-01-01" emptyState
            initialLoading).calls ∧
      ApiCall.getGroupDailyCost "team-a" ("P30D", "2020-01-01")
        ∉ (getInsights mockClient projFilters "2020-01-01" emptyState
            initialLoading).calls) := by
  constructor
  · have h := (getInsights_dailyCost_selection mockClient groupFilters "2020-01-01"
      emptyState initialLoading "team-a" rfl).1 rfl
    exact ⟨h.1, h.2 "p1" ("P30D", "2020-01-01")⟩
  · have h := (getInsights_dailyCost_selection mockClient projFilters "2020-01-01"
      emptyState initialLoading "team-a" rfl).2 "p1" rfl
    exact ⟨h.1, h.2 "team-a" ("P30D", "2020-01-01")⟩

/-- Claim C4: for every fetch run with a group selected, the four resource
states are updated all-or-nothing: when the awaited Promise.all succeeds
all four are replaced wholesale with the fetched values and the error is
null, and when it rejects none of the four is updated. -/
theorem getInsights_all_or_nothing (client : CostInsightsClient) (filters : PageFilters)
    (billingDate : String) (st : PageState) (ld : LoadingState) (g : String)
    (hg : filters.group = some g) :
    (∀ (ps : List Project) (als : List Alert) (m : Option MetricData) (d : Cost),
      fetchAll client g filters (intervalsOf filters.duration billingDate) =
          Except.ok (ps, als, m, d) →
      (getInsights client filters billingDate st ld).state =
        { projects := some ps, dailyCost := some d, metricData := m,
          alerts := some als, error := none }) ∧
    (∀ e : FetchError,
      fetchAll client g filters (intervalsOf filters.duration billingDate) =
          Except.error e →
      (getInsights client filters billingDate st ld).state.projects = st.projects ∧
      (getInsights client filters billingDate st ld).state.alerts = st.alerts ∧
      (getInsights client filters billingDate st ld).state.metricData = st.metricData ∧
      (getInsights client filters billingDate st ld).state.dailyCost = st.dailyCost) := by
  constructor
  · intro ps als m d h
    simp [getInsights, hg, h]
  · intro e h
    simp [getInsights, hg, h]

/-- Witness for C4: a successful concrete run replaces all four states,
and a rejecting concrete run leaves all four untouched. -/
theorem getInsights_all_or_nothing_witness :
    (getInsights mockClient groupFilters "2020-01-01" emptyState initialLoading).state =
      { projects := some ["p1"], dailyCost := some "gc", metricData := some "md",
        alerts := some [], error := none } ∧
    (getInsights failingClient groupFilters "2020-01-01" emptyState
        initialLoading).state.projects = emptyState.projects ∧
    (getInsights failingClient groupFilters "2020-01-01" emptyState
        initialLoading).state.alerts = emptyState.alerts ∧
    (getInsights failingClient groupFilters "2020-01-01" emptyState
        initialLoading).state.metricData = emptyState.metricData ∧
    (getInsights failingClient groupFilters "2020-01-01" emptyState
        initialLoading).state.dailyCost = emptyState.dailyCost := by
  constructor
  · exact (getInsights_all_or_nothing mockClient groupFilters "2020-01-01" emptyState
      initialLoading "team-a" rfl).1 ["p1"] [] (some "md") "gc" rfl
  · exact (getInsights_all_or_nothing failingClient groupFilters "2020-01-01" emptyState
      initialLoading "team-a" rfl).2 "network down" rfl

/-- Claim C5: for every fetch run with a group selected in which the
awaited Promise.all rejects, the run ends with every loading flag in its
not-loading state and with the rejection error stored in the error
state. -/
theorem getInsights_rejection_loading (client : CostInsightsClient)
    (filters : PageFilters) (billingDate : String) (st : PageState) (ld : LoadingState)
    (g : String) (e : FetchError) (hg : filters.group = some g)
    (he : fetchAll client g filters (intervalsOf filters.duration billingDate) =
      Except.error e) :
    (getInsights client filters billingDate st ld).loading =
      { initial := false, insights := false, actions := false } ∧
    (getInsights client filters billingDate st ld).state.error = some e := by
  simp [getInsights, hg, he, dispatchLoadingInsights, dispatchLoadingInitial,
    dispatchLoadingNone]

/-- Witness for C5 at a concrete run whose alerts request rejects. -/
theorem getInsights_rejection_loading_witness :
    (getInsights failingClient groupFilters "2020-01-01" emptyState
        initialLoading).loading =
      { initial := false, insights := false, actions := false } ∧
    (getInsights failingClient groupFilters "2020-01-01" emptyState
        initialLoading).state.error = some "network down" :=
  getInsights_rejection_loading failingClient groupFilters "2020-01-01" emptyState
    initialLoading "team-a" "network down" rfl rfl

/-- Counterexample to C6 as stated: with a group selected but no metric
selected, the loader issues only three requests and none of them is a
metric time series request, so it does not request all four resources for
every filter state with a group selected. -/
theorem getInsights_no_metric_request_counterexample :
    (getInsights mockClient
        { group := some "team-a", project := none, duration := "P30D", metric := none }
        "2020-01-01" emptyState initialLoading).calls =
      [ApiCall.getGroupProjects "team-a", ApiCall.getAlerts "team-a",
        ApiCall.getGroupDailyCost "team-a" ("P30D", "2020-01-01")] := by
  rfl

/-- Claim C6 as amended: for every filter state with a group selected the
loader issues the group projects, alerts and daily cost requests in a
single Promise.all, and it additionally issues the metric time series
request exactly when a metric is selected. -/
theorem getInsights_issued_requests (client : CostInsightsClient)
    (filters : PageFilters) (billingDate : String) (st : PageState) (ld : LoadingState)
    (g : String) (hg : filters.group = some g) :
    ApiCall.getGroupProjects g
        ∈ (getInsights client filters billingDate st ld).calls ∧
    ApiCall.getAlerts g ∈ (getInsights client filters billingDate st ld).calls ∧
    (∀ m : String, filters.metric = some m →
      ApiCall.getDailyMetricData m (intervalsOf filters.duration billingDate)
        ∈ (getInsights client filters billingDate st ld).calls) ∧
    (filters.metric = none →
      ∀ (m : String) (iv : Intervals),
        ApiCall.getDailyMetricData m iv
          ∉ (getInsights client filters billingDate st ld).calls) ∧
    (filters.project = none →
      ApiCall.getGroupDailyCost g (intervalsOf filters.duration billingDate)
        ∈ (getInsights client filters billingDate st ld).calls) ∧
    (∀ p : String, filters.project = some p →
      ApiCall.getProjectDailyCost p (intervalsOf filters.duration billingDate)
        ∈ (getInsights client filters billingDate st ld).calls) := by
  simp only [getInsights_calls_eq]
  refine ⟨?_, ?_, ?_, ?_, ?_, ?_⟩
  · cases hm : filters.metric <;> cases hp : filters.project <;>
      simp [callsOf, hg, hm, hp]
  · cases hm : filters.metric <;> cases hp : filters.project <;>
      simp [callsOf, hg, hm, hp]
  · intro m hm
    cases hp : filters.project <;> simp [callsOf, hg, hm, hp]
  · intro hm m iv
    cases hp : filters.project <;> simp [callsOf, hg, hm, hp]
  · intro hp
    cases hm : filters.metric <;> simp [callsOf, hg, hm, hp]
  · intro p hp
    cases hm : filters.metric <;> simp [callsOf, hg, hm, hp]

/-- Witness for the amended C6 at a concrete filter state with group,
metric and no project selected. -/
theorem getInsights_issued_requests_witness :
    ApiCall.getGroupProjects "team-a"
        ∈ (getInsights mockClient groupFilters "2020-01-01" emptyState
            initialLoading).calls ∧
    ApiCall.getAlerts "team-a"
        ∈ (getInsights mockClient groupFilters "2020-01-01" emptyState
            initialLoading).calls ∧
    ApiCall.getDailyMetricData "m1" (intervalsOf "P30D" "2020-01-01")
        ∈ (getInsights mockClient groupFilters "2020-01-01" emptyState
            initialLoading).calls ∧
    ApiCall.getGroupDailyCost "team-a" (intervalsOf "P30D" "2020-01-01")
        ∈ (getInsights mockClient groupFilters "2020-01-01" emptyState
            initialLoading).calls := by
  have h := getInsights_issued_requests mockClient groupFilters "2020-01-01" emptyState
    initialLoading "team-a" rfl
  exact ⟨h.1, h.2.1, h.2.2.1 "m1" rfl, h.2.2.2.2.1 rfl⟩

/-- Claim C8: selecting the sentinel project value all stores null as the
project filter, identical to selecting no project, so a subsequent fetch
under all requests the group daily cost and never a project daily cost. -/
theorem setProject_all_normalized (pageFilters : PageFilters)
    (client : CostInsightsClient) (billingDate : String) (st : PageState)
    (ld : LoadingState) :
    (setProject pageFilters (some "all")).project = none ∧
    setProject pageFilters (some "all") = setProject pageFilters none ∧
    (∀ g : String, pageFilters.group = some g →
      ApiCall.getGroupDailyCost g
          (intervalsOf (setProject pageFilters (some "all")).duration billingDate)
        ∈ (getInsights client (setProject pageFilters (some "all")) billingDate st
            ld).calls ∧
      ∀ (p : String) (iv : Intervals),
        ApiCall.getProjectDailyCost p iv
          ∉ (getInsights client (setProject pageFilters (some "all")) billingDate st
              ld).calls) := by
  refine ⟨rfl, rfl, ?_⟩
  intro g hg
  have hg2 : (setProject pageFilters (some "all")).group = some g := hg
  exact (calls_dailyCost_selection client (setProject pageFilters (some "all"))
    billingDate st ld g hg2).1 rfl

/-- Witness for C8 at a concrete filter state that had project p1
selected. -/
theorem setProject_all_normalized_witness :
    (setProject projFilters (some "all")).project = none ∧
    setProject projFilters (some "all") = setProject projFilters none ∧
    ApiCall.getGroupDailyCost "team-a"
        (intervalsOf (setProject projFilters (some "all")).duration "2020-01-01")
      ∈ (getInsights mockClient (setProject projFilters (some "all")) "2020-01-01"
          emptyState initialLoading).calls ∧
    ApiCall.getProjectDailyCost "p1" ("P30D", "2020-01-01")
      ∉ (getInsights mockClient (setProject projFilters (some "all")) "2020-01-01"
          emptyState initialLoading).calls := by
  have h := setProject_all_normalized projFilters mockClient "2020-01-01" emptyState
    initialLoading
  have h3 := h.2.2 "team-a" rfl
  exact ⟨h.1, h.2.1, h3.1, h3.2 "p1" ("P30D", "2020-01-01")⟩

/-- Claim C10: every run of the loader clears the stored error first, so a
run with no group selected and a run whose requests all succeed both end
with the error state null; a stale error from an earlier failed fetch
never survives a later successful refetch. -/
theorem getInsights_error_cleared (client : CostInsightsClient) (filters : PageFilters)
    (billingDate : String) (st : PageState) (ld : LoadingState) :
    (filters.group = none →
      (getInsights client filters billingDate st ld).state.error = none) ∧
    (∀ (g : String) (ps : List Project) (als : List Alert) (m : Option MetricData)
        (d : Cost),
      filters.group = some g →
      fetchAll client g filters (intervalsOf filters.duration billingDate) =
          Except.ok (ps, als, m, d) →
      (getInsights client filters billingDate st ld).state.error = none) := by
  constructor
  · intro hg
    simp [getInsights, hg]
  · intro g ps als m d hg h
    simp [getInsights, hg, h]

/-- Witness for C10: a concrete successful refetch starting from a state
holding a stale error ends with the error state null. -/
theorem getInsights_error_cleared_witness :
    (getInsights mockClient groupFilters "2020-01-01" staleErrorState
        initialLoading).state.error = none :=
  (getInsights_error_cleared mockClient groupFilters "2020-01-01" staleErrorState
    initialLoading).2 "team-a" ["p1"] [] (some "md") "gc" rfl rfl

end CostInsights

end Backstage
